import Mathlib

/-!
A verification development for the semantic-analysis (type-checking) pass of
the decaf-rs compiler front end, as implemented in `typeck/src/type_pass.rs`.

The checker is shallowly embedded: the AST is a deep inductive, the per-node
traversal functions (`expr`, `var_sel`, `call`, `check_call`, `binary`,
`unary`, `stmt`, `block`, ...) are translated function-by-function from the
Rust source.  The mutable `TypeCk` context of the Rust code is split into

  * `Env` — the ambient traversal context that the source saves and restores
    around every recursive call (`cur_class`, `cur_func`, `loop_cnt`,
    `cur_var_def`); modelled as a reader value,
  * `St` — the genuinely threaded state (the `cur_used` flag, the scope
    stack, and the write-once node annotation logs `ty`, `var`, `func`,
    `class`),
  * the diagnostic sink `errors` — modelled writer-style: every function
    returns the ordered list of diagnostics it issues (the Rust `issue`
    appends to a global vector in exactly this order and, in expression
    position, returns `Ty::error()`).

Facilities that the pass consumes from sibling crates (scope lookup,
`assignable_to`, `extends`, `Symbol::ty`) are modelled from the
specification, and are marked as such in their doc comments.
-/

namespace Decaf

/-- Source locations; the Rust `Loc` is a (line, col) pair ordered
lexicographically, modelled here as a single natural number. -/
abbrev Loc := Nat

/-- `TyKind` from the `syntax` crate: class / object / function kinds refer to
declarations, modelled by indices into the `Ctx` tables. -/
inductive TyKind where
  | Int
  | Bool
  | String
  | Void
  | Error
  | Null
  | Object (c : Nat)
  | Class (c : Nat)
  | Func (f : Nat)
  deriving DecidableEq, Repr, Inhabited

/-- `Ty { arr: u32, kind: TyKind }`. -/
structure Ty where
  arr : Nat
  kind : TyKind
  deriving DecidableEq, Repr, Inhabited

def Ty.int : Ty := ⟨0, .Int⟩

def Ty.bool : Ty := ⟨0, .Bool⟩

def Ty.string : Ty := ⟨0, .String⟩

def Ty.void : Ty := ⟨0, .Void⟩

def Ty.error : Ty := ⟨0, .Error⟩

def Ty.null : Ty := ⟨0, .Null⟩

def Ty.mk_obj (c : Nat) : Ty := ⟨0, .Object c⟩

def Ty.mk_class (c : Nat) : Ty := ⟨0, .Class c⟩

def Ty.mk_func (f : Nat) : Ty := ⟨0, .Func f⟩

/-- Modelled from the spec: `is_arr` — the type has at least one array
dimension. -/
def Ty.is_arr (t : Ty) : Bool := decide (0 < t.arr)

/-- Modelled from the spec: `is_object` — a non-array `Object` reference. -/
def Ty.is_object (t : Ty) : Bool :=
  t.arr == 0 && match t.kind with | .Object _ => true | _ => false

/-- Modelled from the spec: `is_class` — a non-array class-as-value type. -/
def Ty.is_class (t : Ty) : Bool :=
  t.arr == 0 && match t.kind with | .Class _ => true | _ => false

/-- Modelled from the spec: `is_func` — a non-array function reference. -/
def Ty.is_func (t : Ty) : Bool :=
  t.arr == 0 && match t.kind with | .Func _ => true | _ => false

/-- A symbol a name resolves to (`syntax::Symbol`): variable, method,
`this` binding, or class-as-value. -/
inductive Symbol where
  | Var (v : Nat)
  | Func (f : Nat)
  | This (f : Nat)
  | Class (c : Nat)
  deriving DecidableEq, Repr

/-- The diagnostic kinds issued by `type_pass.rs` (`common::ErrorKind`). -/
inductive ErrorKind where
  | IncompatibleBinary (l : Ty) (op : String) (r : Ty)
  | IncompatibleUnary (op : String) (r : Ty)
  | ReturnMismatch (actual expect : Ty)
  | BadPrintArg (pos : Nat) (ty : Ty)
  | BreakOutOfLoop
  | UnreachableCode
  | NoReturn
  | TestNotBool
  | IndexNotInt
  | IndexNotArray
  | ThisInStatic
  | NoSuchClass (name : String)
  | NewArrayNotInt
  | NotObject (owner : Ty)
  | PrivateFieldAccess (name : String) (owner : Ty)
  | NoSuchField (name : String) (owner : Ty)
  | BadFieldAccess (name : String) (owner : Ty)
  | UndeclaredVar (name : String)
  | RefInStatic (field func : String)
  | LengthWithArgument (n : Nat)
  | ArgcMismatch (name : String) (expect actual : Nat)
  | ArgMismatch (pos : Nat) (arg param : Ty)
  | NotFunc (name : String) (owner : Ty)
  deriving DecidableEq, Repr

/-- A located diagnostic record. -/
structure Diag where
  loc : Loc
  kind : ErrorKind
  deriving DecidableEq, Repr

/-- The built-in array length selector name (`common::LENGTH`). -/
def LENGTH : String := "length"

inductive UnOp where
  | Neg
  | Not
  deriving DecidableEq, Repr

inductive BinOp where
  | Add | Sub | Mul | Div | Mod
  | And | Or | Eq | Ne | Lt | Le | Gt | Ge
  deriving DecidableEq, Repr

/-- `to_op_str` for binary operators. -/
def BinOp.to_op_str : BinOp → String
  | .Add => "+" | .Sub => "-" | .Mul => "*" | .Div => "/" | .Mod => "%"
  | .And => "&&" | .Or => "||" | .Eq => "==" | .Ne => "!="
  | .Lt => "<" | .Le => "<=" | .Gt => ">" | .Ge => ">="

/-- Expression AST (`syntax::ast::Expr`); every node carries its location.
`NewArray` carries its already-resolved element type (the Rust code resolves
the syntactic type via `self.ty`, which lives outside this pass). -/
inductive Expr where
  | VarSel (owner : Option Expr) (name : String) (loc : Loc)
  | IndexSel (arr idx : Expr) (loc : Loc)
  | IntLit (v : Int) (loc : Loc)
  | BoolLit (v : Bool) (loc : Loc)
  | StringLit (s : String) (loc : Loc)
  | NullLit (loc : Loc)
  | ReadInt (loc : Loc)
  | ReadLine (loc : Loc)
  | Call (owner : Option Expr) (name : String) (args : List Expr) (loc : Loc)
  | Unary (op : UnOp) (r : Expr) (loc : Loc)
  | Binary (op : BinOp) (l r : Expr) (loc : Loc)
  | This (loc : Loc)
  | NewClass (name : String) (loc : Loc)
  | NewArray (elem : Ty) (len : Expr) (loc : Loc)
  | ClassTest (e : Expr) (name : String) (loc : Loc)
  | ClassCast (e : Expr) (name : String) (loc : Loc)
  deriving Repr

def Expr.loc : Expr → Loc
  | .VarSel _ _ l => l
  | .IndexSel _ _ l => l
  | .IntLit _ l => l
  | .BoolLit _ l => l
  | .StringLit _ l => l
  | .NullLit l => l
  | .ReadInt l => l
  | .ReadLine l => l
  | .Call _ _ _ l => l
  | .Unary _ _ l => l
  | .Binary _ _ _ l => l
  | .This l => l
  | .NewClass _ l => l
  | .NewArray _ _ l => l
  | .ClassTest _ _ l => l
  | .ClassCast _ _ l => l

mutual
/-- Statement AST (`syntax::ast::Stmt`).  `LocalVarDef` keeps both the
declaration position of the variable (`vloc`, the Rust `v.loc` used as the
`lookup_before` cutoff) and, in `init`, the location of the initializer
(the Rust `(loc, e)` pair). -/
inductive Stmt where
  | Assign (dst src : Expr) (loc : Loc)
  | LocalVarDef (ty : Ty) (name : String) (vloc : Loc) (init : Option (Loc × Expr)) (loc : Loc)
  | ExprEval (e : Expr) (loc : Loc)
  | Skip (loc : Loc)
  | If (cond : Expr) (onTrue : Block) (onFalse : Option Block) (loc : Loc)
  | While (cond : Expr) (body : Block) (loc : Loc)
  | For (init : Stmt) (cond : Expr) (update : Stmt) (body : Block) (loc : Loc)
  | Return (e : Option Expr) (loc : Loc)
  | Print (args : List Expr) (loc : Loc)
  | Break (loc : Loc)
  | Block_ (b : Block)
  deriving Repr

/-- A block: its location, the pre-built local scope attached by the earlier
symbol-building pass (modelled from the spec), and its statements. -/
inductive Block where
  | mk (loc : Loc) (syms : List (String × Symbol)) (stmts : List Stmt)
  deriving Repr
end

instance : Inhabited Block := ⟨.mk 0 [] []⟩

def Block.loc : Block → Loc
  | .mk l _ _ => l

def Block.syms : Block → List (String × Symbol)
  | .mk _ s _ => s

def Block.stmts : Block → List Stmt
  | .mk _ _ s => s

def Stmt.loc : Stmt → Loc
  | .Assign _ _ l => l
  | .LocalVarDef _ _ _ _ l => l
  | .ExprEval _ l => l
  | .Skip l => l
  | .If _ _ _ l => l
  | .While _ _ l => l
  | .For _ _ _ _ l => l
  | .Return _ l => l
  | .Print _ l => l
  | .Break l => l
  | .Block_ b => b.loc

/-- `match st.kind { StmtKind::Break(_) => true, _ => false }`. -/
def Stmt.isBreak : Stmt → Bool
  | .Break _ => true
  | _ => false

/-- A variable declaration (`VarDef`): its declared type, declaration
position, and whether its owning scope is a class (a field). -/
structure VarInfo where
  name : String
  ty : Ty
  loc : Loc
  ownerIsClass : Bool
  deriving Repr, Inhabited

/-- A method declaration (`FuncDef`): parameters are kept as their declared
types (only the type is consulted by this pass), `paramSyms` is the pre-built
parameter scope, `owner` the declaring class, `body` the AST body block. -/
structure FuncInfo where
  name : String
  static_ : Bool
  retTy : Ty
  param : List Ty
  paramSyms : List (String × Symbol)
  owner : Nat
  body : Block
  deriving Repr, Inhabited

inductive FieldDef where
  | VarF (v : Nat)
  | FuncF (f : Nat)
  deriving Repr, Inhabited

/-- A class declaration: parent link, member scope, and ordered fields. -/
structure ClassInfo where
  name : String
  parent : Option Nat
  members : List (String × Symbol)
  fields : List FieldDef
  deriving Repr, Inhabited

/-- The program tables built by the earlier passes: classes, methods and
variables addressed by index. -/
structure Ctx where
  classes : List ClassInfo
  funcs : List FuncInfo
  vars : List VarInfo
  deriving Repr, Inhabited

def assocFind (l : List (String × Symbol)) (name : String) : Option Symbol :=
  match l.find? (fun p => p.1 == name) with
  | some p => some p.2
  | none => none

/-- Modelled from the spec: `c1.extends(c2)` — `c1` is `c2` or a descendant
of `c2` along the (acyclic) parent chain.  The fuel bounds the chain length
by the number of classes. -/
def Ctx.extendsAux (ctx : Ctx) : Nat → Nat → Nat → Bool
  | 0, _, _ => false
  | fuel + 1, a, b =>
    a == b ||
      match (ctx.classes.getD a default).parent with
      | some p => ctx.extendsAux fuel p b
      | none => false

def Ctx.extendsClass (ctx : Ctx) (a b : Nat) : Bool :=
  ctx.extendsAux (ctx.classes.length + 1) a b

/-- Modelled from the spec: `class.lookup(name)` — search the class's own
declarations, then its parent's, transitively; nearest match wins. -/
def Ctx.lookupAux (ctx : Ctx) : Nat → Nat → String → Option Symbol
  | 0, _, _ => none
  | fuel + 1, c, name =>
    match assocFind (ctx.classes.getD c default).members name with
    | some s => some s
    | none =>
      match (ctx.classes.getD c default).parent with
      | some p => ctx.lookupAux fuel p name
      | none => none

def Ctx.clookup (ctx : Ctx) (c : Nat) (name : String) : Option Symbol :=
  ctx.lookupAux (ctx.classes.length + 1) c name

/-- Modelled from the spec: `Symbol::ty` — the declared type of a resolved
symbol. -/
def Symbol.ty (ctx : Ctx) : Symbol → Ty
  | .Var v => (ctx.vars.getD v default).ty
  | .Func f => Ty.mk_func f
  | .This f => Ty.mk_obj ((ctx.funcs.getD f default).owner)
  | .Class c => Ty.mk_class c

/-- Modelled from the spec: `assignable_to(src, dst)` — true iff `src = dst`,
either side is `Error`, `src` and `dst` are object types with `src`'s class
equal to or a descendant of `dst`'s, or `src` is `Null` and `dst` is an
object or array type. -/
def assignable_to (ctx : Ctx) (src dst : Ty) : Bool :=
  src == dst || src == Ty.error || dst == Ty.error ||
    (match src.arr, src.kind, dst.arr, dst.kind with
     | 0, .Object c1, 0, .Object c2 => ctx.extendsClass c1 c2
     | 0, .Null, 0, .Object _ => true
     | 0, .Null, da, _ => decide (0 < da)
     | _, _, _, _ => false)

/-- One entry of the traversal-path scope stack. -/
inductive Frame where
  | GlobalF (syms : List (String × Symbol))
  | ClassF (c : Nat)
  | ParamF (syms : List (String × Symbol))
  | LocalF (syms : List (String × Symbol))
  deriving Repr

/-- Modelled from the spec: one frame of `lookup_before` — in a local scope a
variable whose declaration begins at or after `pos` is invisible; other
scope kinds ignore the cutoff; a class frame chains to its parents. -/
def frameLookupBefore (ctx : Ctx) (f : Frame) (name : String) (pos : Loc) : Option Symbol :=
  match f with
  | .GlobalF syms => assocFind syms name
  | .ClassF c => ctx.clookup c name
  | .ParamF syms => assocFind syms name
  | .LocalF syms =>
    match assocFind syms name with
    | some (.Var v) =>
      if (ctx.vars.getD v default).loc < pos then some (.Var v) else none
    | o => o

/-- Modelled from the spec: `lookup_before(name, pos)` — nearest-enclosing
search up the scope stack, with locals declared at or after `pos` invisible
(an invisible local does not hide a same-named variable further out). -/
def lookup_before (ctx : Ctx) : List Frame → String → Loc → Option Symbol
  | [], _, _ => none
  | f :: rest, name, pos =>
    match frameLookupBefore ctx f name pos with
    | some s => some s
    | none => lookup_before ctx rest name pos

/-- Modelled from the spec: `lookup_class` — global lookup of a top-level
class by name, independent of the current nesting. -/
def lookup_class (ctx : Ctx) (name : String) : Option Nat :=
  (List.range ctx.classes.length).find?
    (fun i => (ctx.classes.getD i default).name == name)

/-- The ambient traversal context the Rust code saves and restores around
recursive calls: current class, current method, loop-nesting depth, and the
declaration-position cutoff of the local currently being initialized. -/
structure Env where
  curClass : Option Nat := none
  curFunc : Option Nat := none
  loopCnt : Nat := 0
  curVarDef : Option Loc := none
  deriving Repr

/-- The threaded checker state: the `cur_used` flag, the scope stack, and the
append-only node-annotation logs (`e.ty.set`, `v.var.set`, `c.func.set`,
`n.class.set`), each keyed by the node's location. -/
structure St where
  curUsed : Bool := false
  scopeStack : List Frame := []
  tyLog : List (Loc × Ty) := []
  varLog : List (Loc × Nat) := []
  funcLog : List (Loc × Nat) := []
  classLog : List (Loc × Nat) := []
  deriving Repr

def St.pushScope (st : St) (f : Frame) : St :=
  { st with scopeStack := f :: st.scopeStack }

def St.annot (st : St) (l : Loc) (t : Ty) : St :=
  { st with tyLog := st.tyLog ++ [(l, t)] }

def St.annotVar (st : St) (l : Loc) (v : Nat) : St :=
  { st with varLog := st.varLog ++ [(l, v)] }

def St.annotFunc (st : St) (l : Loc) (f : Nat) : St :=
  { st with funcLog := st.funcLog ++ [(l, f)] }

def St.annotClass (st : St) (l : Loc) (c : Nat) : St :=
  { st with classLog := st.classLog ++ [(l, c)] }

/-- The fixed result type of a binary operator (the `ret` of
`TypePass::binary`, also the type produced on the Error-absorbing path). -/
def binOpResultTy : BinOp → Ty
  | .Add | .Sub | .Mul | .Div | .Mod => Ty.int
  | _ => Ty.bool

/-- The fixed result type of a unary operator. -/
def unOpResultTy : UnOp → Ty
  | .Neg => Ty.int
  | .Not => Ty.bool

/-- The static/instance discipline of `TypePass::check_call` on a resolved
method `f`: calling a non-static method through a class name, or an
unqualified non-static method from a static method, is an error. -/
def staticCheckOut (ctx : Ctx) (env : Env) (hasOwner : Bool) (name : String) (owner : Ty) (f : Nat) (loc : Loc) : List Diag :=
  let fi := ctx.funcs.getD f default
  if hasOwner then
    if owner.is_class ∧ !fi.static_ then [⟨loc, .BadFieldAccess name owner⟩] else []
  else
    let cur := ctx.funcs.getD (env.curFunc.getD 0) default
    if cur.static_ ∧ !fi.static_ then [⟨loc, .RefInStatic fi.name cur.name⟩] else []

mutual

/-- `TypePass::expr`: dispatch on the node kind, then set the node's `ty`
annotation (the single `e.ty.set(ty)` at the end of the Rust function). -/
def expr (ctx : Ctx) (env : Env) (st : St) (e : Expr) : Ty × St × List Diag :=
  let r := exprK ctx env st e
  (r.1, (r.2.1).annot e.loc r.1, r.2.2)

termination_by (sizeOf e, 1)

/-- The body of the `match &e.kind` in `TypePass::expr`. -/
def exprK (ctx : Ctx) (env : Env) (st : St) (e : Expr) : Ty × St × List Diag :=
  match e with
  | .VarSel owner name loc => var_sel ctx env st owner name loc
  | .IndexSel a i loc =>
    let r1 := expr ctx env st a
    let r2 := expr ctx env r1.2.1 i
    let oIdx : List Diag :=
      if r2.1 ≠ Ty.int ∧ r2.1 ≠ Ty.error then [⟨loc, .IndexNotInt⟩] else []
    let res : Ty × List Diag :=
      if 0 < r1.1.arr then (⟨r1.1.arr - 1, r1.1.kind⟩, [])
      else if r1.1 = Ty.error then (Ty.error, [])
      else (Ty.error, [⟨a.loc, .IndexNotArray⟩])
    (res.1, r2.2.1, r1.2.2 ++ r2.2.2 ++ oIdx ++ res.2)
  | .IntLit _ _ => (Ty.int, st, [])
  | .ReadInt _ => (Ty.int, st, [])
  | .BoolLit _ _ => (Ty.bool, st, [])
  | .StringLit _ _ => (Ty.string, st, [])
  | .ReadLine _ => (Ty.string, st, [])
  | .NullLit _ => (Ty.null, st, [])
  | .Call owner name args loc => call ctx env st owner name args loc
  | .Unary op r loc => unary ctx env st op r loc
  | .Binary op l r loc => binary ctx env st op l r loc
  | .This loc =>
    let f := ctx.funcs.getD (env.curFunc.getD 0) default
    if !f.static_ then (Ty.mk_obj (env.curClass.getD 0), st, [])
    else (Ty.error, st, [⟨loc, .ThisInStatic⟩])
  | .NewClass name loc =>
    match lookup_class ctx name with
    | some c => (Ty.mk_obj c, st.annotClass loc c, [])
    | none => (Ty.error, st, [⟨loc, .NoSuchClass name⟩])
  | .NewArray elem len _ =>
    let r := expr ctx env st len
    let o : List Diag :=
      if r.1 ≠ Ty.int ∧ r.1 ≠ Ty.error then [⟨len.loc, .NewArrayNotInt⟩] else []
    (⟨elem.arr + 1, elem.kind⟩, r.2.1, r.2.2 ++ o)
  | .ClassTest ce name loc =>
    let r := expr ctx env st ce
    let o1 : List Diag :=
      if r.1 ≠ Ty.error ∧ !r.1.is_object then [⟨loc, .NotObject r.1⟩] else []
    match lookup_class ctx name with
    | some c => (Ty.bool, (r.2.1).annotClass loc c, r.2.2 ++ o1)
    | none => (Ty.error, r.2.1, r.2.2 ++ o1 ++ [⟨loc, .NoSuchClass name⟩])
  | .ClassCast ce name loc =>
    let r := expr ctx env st ce
    let o1 : List Diag :=
      if r.1 ≠ Ty.error ∧ !r.1.is_object then [⟨loc, .NotObject r.1⟩] else []
    match lookup_class ctx name with
    | some c => (Ty.mk_obj c, (r.2.1).annotClass loc c, r.2.2 ++ o1)
    | none => (Ty.error, r.2.1, r.2.2 ++ o1 ++ [⟨loc, .NoSuchClass name⟩])

termination_by (sizeOf e, 0)

/-- `TypePass::binary`. -/
def binary (ctx : Ctx) (env : Env) (st : St) (op : BinOp) (l r : Expr) (loc : Loc) : Ty × St × List Diag :=
  let rl := expr ctx env st l
  let rr := expr ctx env rl.2.1 r
  if rl.1 = Ty.error ∨ rr.1 = Ty.error then
    (binOpResultTy op, rr.2.1, rl.2.2 ++ rr.2.2)
  else
    let ok : Bool :=
      match op with
      | .Add | .Sub | .Mul | .Div | .Mod => rl.1 == Ty.int && rr.1 == Ty.int
      | .Lt | .Le | .Gt | .Ge => rl.1 == Ty.int && rr.1 == Ty.int
      | .Eq | .Ne => assignable_to ctx rl.1 rr.1 || assignable_to ctx rr.1 rl.1
      | .And | .Or => rl.1 == Ty.bool && rr.1 == Ty.bool
    let od : List Diag :=
      if !ok then [⟨loc, .IncompatibleBinary rl.1 op.to_op_str rr.1⟩] else []
    (binOpResultTy op, rr.2.1, rl.2.2 ++ rr.2.2 ++ od)
termination_by (sizeOf l + sizeOf r, 2)
decreasing_by
  · have hr : 0 < sizeOf r := by cases r <;> simp_arith
    exact Prod.Lex.left _ _ (by omega)
  · have hl : 0 < sizeOf l := by cases l <;> simp_arith
    exact Prod.Lex.left _ _ (by omega)

/-- `TypePass::unary`. -/
def unary (ctx : Ctx) (env : Env) (st : St) (op : UnOp) (r : Expr) (loc : Loc) : Ty × St × List Diag :=
  let rr := expr ctx env st r
  match op with
  | .Neg =>
    let od : List Diag :=
      if rr.1 ≠ Ty.int ∧ rr.1 ≠ Ty.error then [⟨loc, .IncompatibleUnary ("-") rr.1⟩] else []
    (Ty.int, rr.2.1, rr.2.2 ++ od)
  | .Not =>
    let od : List Diag :=
      if rr.1 ≠ Ty.bool ∧ rr.1 ≠ Ty.error then [⟨loc, .IncompatibleUnary ("!") rr.1⟩] else []
    (Ty.bool, rr.2.1, rr.2.2 ++ od)

termination_by (sizeOf r, 2)

/-- `TypePass::var_sel`. -/
def var_sel (ctx : Ctx) (env : Env) (st : St) (owner : Option Expr) (name : String) (loc : Loc) : Ty × St × List Diag :=
  match owner with
  | some o =>
    let r := expr ctx env { st with curUsed := true } o
    (match r.1 with
     | ⟨0, .Object c⟩ =>
       match ctx.clookup c name with
       | some (.Var v) =>
         let od : List Diag :=
           if !(ctx.extendsClass (env.curClass.getD 0) c) then
             [⟨loc, .PrivateFieldAccess name r.1⟩]
           else []
         ((ctx.vars.getD v default).ty, (r.2.1).annotVar loc v, r.2.2 ++ od)
       | some s => (s.ty ctx, r.2.1, r.2.2)
       | none => (Ty.error, r.2.1, r.2.2 ++ [⟨loc, .NoSuchField name r.1⟩])
     | ot =>
       if ot = Ty.error then (Ty.error, r.2.1, r.2.2)
       else (Ty.error, r.2.1, r.2.2 ++ [⟨loc, .BadFieldAccess name ot⟩]))
  | none =>
    let pos : Loc :=
      match env.curVarDef with
      | some p => p
      | none => loc
    let res : Ty × St × List Diag :=
      match lookup_before ctx st.scopeStack name pos with
      | some (.Var v) =>
        let vi := ctx.vars.getD v default
        let od : List Diag :=
          if vi.ownerIsClass then
            let cur := ctx.funcs.getD (env.curFunc.getD 0) default
            if cur.static_ then [⟨loc, .RefInStatic name cur.name⟩] else []
          else []
        (vi.ty, st.annotVar loc v, od)
      | some (.Func f) => (Ty.mk_func f, st, [])
      | some (.This f) => (Ty.mk_obj ((ctx.funcs.getD f default).owner), st, [])
      | some (.Class c) =>
        if !st.curUsed then (Ty.error, st, [⟨loc, .UndeclaredVar name⟩])
        else (Ty.mk_class c, st, [])
      | none => (Ty.error, st, [⟨loc, .UndeclaredVar name⟩])
    (res.1, { res.2.1 with curUsed := false }, res.2.2)

termination_by (sizeOf owner, 2)

/-- `TypePass::call`. -/
def call (ctx : Ctx) (env : Env) (st : St) (owner : Option Expr) (name : String) (args : List Expr) (loc : Loc) : Ty × St × List Diag :=
  match owner with
  | some o =>
    let r := expr ctx env { st with curUsed := true } o
    if r.1 = Ty.error then (Ty.error, r.2.1, r.2.2)
    else if name = LENGTH ∧ r.1.is_arr then
      let od : List Diag :=
        if args.isEmpty then [] else [⟨loc, .LengthWithArgument args.length⟩]
      (Ty.int, r.2.1, r.2.2 ++ od)
    else
      match r.1.kind with
      | .Class cl =>
        let cc := check_call ctx env r.2.1 true name args r.1 (ctx.clookup cl name) loc
        (cc.1, cc.2.1, r.2.2 ++ cc.2.2)
      | .Object cl =>
        let cc := check_call ctx env r.2.1 true name args r.1 (ctx.clookup cl name) loc
        (cc.1, cc.2.1, r.2.2 ++ cc.2.2)
      | _ => (Ty.error, r.2.1, r.2.2 ++ [⟨loc, .BadFieldAccess name r.1⟩])
  | none =>
    let cur := env.curClass.getD 0
    check_call ctx env st false name args (Ty.mk_obj cur) (ctx.clookup cur name) loc

termination_by (sizeOf owner + sizeOf args, 2)

/-- `TypePass::check_call`: `hasOwner` records whether the call was
qualified (the Rust code only matches on the presence of `c.owner`). -/
def check_call (ctx : Ctx) (env : Env) (st : St) (hasOwner : Bool) (name : String) (args : List Expr) (owner : Ty) (symbol : Option Symbol) (loc : Loc) : Ty × St × List Diag :=
  match symbol with
  | some (.Func f) =>
    let fi := ctx.funcs.getD f default
    let st1 := st.annotFunc loc f
    let so := staticCheckOut ctx env hasOwner name owner f loc
    if fi.param.length ≠ args.length then
      (fi.retTy, st1, so ++ [⟨loc, .ArgcMismatch name fi.param.length args.length⟩])
    else
      let ca := checkArgs ctx env st1 args fi.param 0
      (fi.retTy, ca.1, so ++ ca.2)
  | some _ => (Ty.error, st, [⟨loc, .NotFunc name owner⟩])
  | none => (Ty.error, st, [⟨loc, .NoSuchField name owner⟩])

termination_by (sizeOf args, 1)

/-- The argument loop of `TypePass::check_call`: each argument is checked
and its assignability to the positional parameter reported independently. -/
def checkArgs (ctx : Ctx) (env : Env) (st : St) (args : List Expr) (params : List Ty) (idx : Nat) : St × List Diag :=
  match args, params with
  | a :: as_, p :: ps =>
    let r := expr ctx env st a
    let mo : List Diag :=
      if !(assignable_to ctx r.1 p) then [⟨a.loc, .ArgMismatch (idx + 1) r.1 p⟩] else []
    let rest := checkArgs ctx env r.2.1 as_ ps (idx + 1)
    (rest.1, r.2.2 ++ mo ++ rest.2)
  | _, _ => (st, [])
termination_by (sizeOf args, 0)

end

/-- `TypePass::check_bool`: a condition must be `bool` (or `Error`). -/
def check_bool (ctx : Ctx) (env : Env) (st : St) (e : Expr) : St × List Diag :=
  let r := expr ctx env st e
  (r.2.1, r.2.2 ++ (if r.1 ≠ Ty.bool ∧ r.1 ≠ Ty.error then [⟨e.loc, .TestNotBool⟩] else []))

/-- The argument loop of the `Print` case of `TypePass::stmt`. -/
def printArgs (ctx : Ctx) (env : Env) (st : St) : List Expr → Nat → St × List Diag
  | [], _ => (st, [])
  | e :: rest, i =>
    let r := expr ctx env st e
    let od : List Diag :=
      if r.1 ≠ Ty.error ∧ r.1 ≠ Ty.bool ∧ r.1 ≠ Ty.int ∧ r.1 ≠ Ty.string then
        [⟨e.loc, .BadPrintArg (i + 1) r.1⟩]
      else []
    let rr := printArgs ctx env r.2.1 rest (i + 1)
    (rr.1, r.2.2 ++ od ++ rr.2)

mutual

/-- `TypePass::stmt`: returns whether the statement definitely returns a
value, the threaded state, and the diagnostics it issues, in order. -/
def stmt (ctx : Ctx) (env : Env) (st : St) (s : Stmt) : Bool × St × List Diag :=
  match s with
  | .Assign dst src loc =>
    let rl := expr ctx env st dst
    let rr := expr ctx env rl.2.1 src
    let od : List Diag :=
      if rl.1.is_func || !(assignable_to ctx rr.1 rl.1) then
        [⟨loc, .IncompatibleBinary rl.1 ("=") rr.1⟩]
      else []
    (false, rr.2.1, rl.2.2 ++ rr.2.2 ++ od)
  | .LocalVarDef ty _ vloc ini _ =>
    match ini with
    | some (iloc, e) =>
      let r := expr ctx { env with curVarDef := some vloc } st e
      let od : List Diag :=
        if !(assignable_to ctx r.1 ty) then [⟨iloc, .IncompatibleBinary ty ("=") r.1⟩] else []
      (false, r.2.1, r.2.2 ++ od)
    | none => (false, st, [])
  | .ExprEval e _ =>
    let r := expr ctx env st e
    (false, r.2.1, r.2.2)
  | .Skip _ => (false, st, [])
  | .If cond t f _ =>
    let rc := check_bool ctx env st cond
    let r1 := block ctx env rc.1 t
    (match f with
     | some fb =>
       let r2 := block ctx env r1.2.1 fb
       (r1.1 && r2.1, r2.2.1, rc.2 ++ r1.2.2 ++ r2.2.2)
     | none => (false, r1.2.1, rc.2 ++ r1.2.2))
  | .While cond body _ =>
    let rc := check_bool ctx env st cond
    let rb := block ctx { env with loopCnt := env.loopCnt + 1 } rc.1 body
    (false, rb.2.1, rc.2 ++ rb.2.2)
  | .For ini cond update (.mk _ bsyms bstmts) _ =>
    let st1 := st.pushScope (.LocalF bsyms)
    let r1 := stmt ctx env st1 ini
    let rc := check_bool ctx env r1.2.1 cond
    let r2 := stmt ctx env rc.1 update
    let r3 := stmtEach ctx env r2.2.1 bstmts
    (false, { r3.1 with scopeStack := st.scopeStack }, r1.2.2 ++ rc.2 ++ r2.2.2 ++ r3.2)
  | .Return r loc =>
    let expect := (ctx.funcs.getD (env.curFunc.getD 0) default).retTy
    (match r with
     | some e =>
       let re := expr ctx env st e
       let od : List Diag :=
         if !(assignable_to ctx re.1 expect) then [⟨loc, .ReturnMismatch re.1 expect⟩] else []
       (true, re.2.1, re.2.2 ++ od)
     | none =>
       let od : List Diag :=
         if expect ≠ Ty.void then [⟨loc, .ReturnMismatch Ty.void expect⟩] else []
       (false, st, od))
  | .Print args _ =>
    let r := printArgs ctx env st args 0
    (false, r.1, r.2)
  | .Break loc =>
    let od : List Diag := if env.loopCnt = 0 then [⟨loc, .BreakOutOfLoop⟩] else []
    (false, st, od)
  | .Block_ b => block ctx env st b
termination_by (sizeOf s, 2)

/-- The statement loop of `TypePass::block`, carrying the `ret`, `ended`
and `issued` flags exactly as in the source. -/
def blockGo (ctx : Ctx) (env : Env) (st : St) (l : List Stmt) (ret ended issued : Bool) : Bool × St × List Diag :=
  match l with
  | [] => (ret, st, [])
  | s :: rest =>
    let unreach : List Diag := if ended && !issued then [⟨s.loc, .UnreachableCode⟩] else []
    let issued1 := issued || ended
    let r := stmt ctx env st s
    let ret1 := if ended then ret else r.1
    let ended1 := ret1 || s.isBreak
    let rr := blockGo ctx env r.2.1 rest ret1 ended1 issued1
    (rr.1, rr.2.1, unreach ++ r.2.2 ++ rr.2.2)
termination_by (sizeOf l, 0)

/-- `TypePass::block`: open the block's local scope, scan the statements,
restore the scope. -/
def block (ctx : Ctx) (env : Env) (st : St) (b : Block) : Bool × St × List Diag :=
  match b with
  | .mk _ bsyms bstmts =>
    let st1 := st.pushScope (.LocalF bsyms)
    let r := blockGo ctx env st1 bstmts false false false
    (r.1, { r.2.1 with scopeStack := st.scopeStack }, r.2.2)
termination_by (sizeOf b, 1)

/-- The body loop of the `For` case: the statements are checked one by one
without reopening the scope (`block` is not called). -/
def stmtEach (ctx : Ctx) (env : Env) (st : St) : List Stmt → St × List Diag
  | [] => (st, [])
  | s :: rest =>
    let r := stmt ctx env st s
    let rr := stmtEach ctx env r.2.1 rest
    (rr.1, r.2.2 ++ rr.2)
termination_by l => (sizeOf l, 0)

end

/-- The per-method part of `TypePass::class_def`: check the body in the
method's parameter scope and report `NoReturn` for a non-void method whose
body does not definitely return. -/
def funcCheck (ctx : Ctx) (env : Env) (st : St) (f : Nat) : St × List Diag :=
  let fi := ctx.funcs.getD f default
  let st1 := st.pushScope (.ParamF fi.paramSyms)
  let r := block ctx { env with curFunc := some f } st1 fi.body
  ({ r.2.1 with scopeStack := st.scopeStack },
   r.2.2 ++ (if !r.1 ∧ fi.retTy ≠ Ty.void then [⟨fi.body.loc, .NoReturn⟩] else []))

/-- The field loop of `TypePass::class_def`. -/
def fieldsCheck (ctx : Ctx) (env : Env) (st : St) : List FieldDef → St × List Diag
  | [] => (st, [])
  | .VarF _ :: rest => fieldsCheck ctx env st rest
  | .FuncF f :: rest =>
    let r := funcCheck ctx env st f
    let rr := fieldsCheck ctx env r.1 rest
    (rr.1, r.2 ++ rr.2)

/-- `TypePass::class_def`. -/
def class_def (ctx : Ctx) (env : Env) (st : St) (c : Nat) : St × List Diag :=
  let ci := ctx.classes.getD c default
  let st1 := st.pushScope (.ClassF c)
  let r := fieldsCheck ctx { env with curClass := some c } st1 ci.fields
  ({ r.1 with scopeStack := st.scopeStack }, r.2)

/-! ### Specification-side definitions for the refinement claims -/

/-- The state/diagnostic trace of evaluating a list of argument expressions
in order, keeping each argument's synthesized type, location, and its own
diagnostics. -/
def argRuns (ctx : Ctx) (env : Env) (st : St) : List Expr → (List (Ty × Loc × List Diag)) × St
  | [] => ([], st)
  | a :: rest =>
    let r := expr ctx env st a
    let rr := argRuns ctx env r.2.1 rest
    ((r.1, a.loc, r.2.2) :: rr.1, rr.2)

/-- Modelled from the spec: when argument and parameter counts match, every
position is checked independently — each argument's own diagnostics followed
by exactly one `ArgMismatch`, at that argument's location and carrying the
1-based position, iff the argument type is not assignable to the positional
parameter type. -/
def argJoin (ctx : Ctx) : List (Ty × Loc × List Diag) → List Ty → Nat → List Diag
  | (t, al, o) :: rs, p :: ps, i =>
    o ++ (if !(assignable_to ctx t p) then [⟨al, .ArgMismatch (i + 1) t p⟩] else []) ++
      argJoin ctx rs ps (i + 1)
  | _, _, _ => []

/-! ### Concrete program fixtures used by witnesses and counterexamples -/

/-- A non-static method `int f()` owned by class 0. -/
def intFunc : FuncInfo :=
  { name := ("f"), static_ := false, retTy := Ty.int, param := [], paramSyms := [],
    owner := 0, body := default }

/-- A context with a single method `int f()` and no classes or variables. -/
def ctxInt : Ctx := { classes := [], funcs := [intFunc], vars := [] }

/-- Checking inside method 0 of class 0. -/
def envInt : Env := { curClass := some 0, curFunc := some 0 }

/-- A context that also declares a local `int[] arr` (variable 0). -/
def ctxArr : Ctx :=
  { classes := [], funcs := [intFunc],
    vars := [{ name := ("arr"), ty := ⟨1, .Int⟩, loc := 0, ownerIsClass := false }] }

/-- A scope stack with the single local `arr` in scope. -/
def stArr : St := { scopeStack := [.LocalF [(("arr"), .Var 0)]] }

/-- The failing input of the block-result claim: `{ break; skip; return 1; }`. -/
def blkC2 : Block := .mk 1 [] [.Break 2, .Skip 3, .Return (some (.IntLit 1 4)) 5]

/-- `arr.length(1)`: the argument literal sits at location 42. -/
def lenCallC5 : Expr := .Call (some (.VarSel none ("arr") 20)) LENGTH [.IntLit 1 42] 21

/-- Method `int f() { while (true) { } }` (body at location 11). -/
def whileFunc : FuncInfo :=
  { name := ("f"), static_ := false, retTy := Ty.int, param := [], paramSyms := [],
    owner := 0, body := .mk 11 [] [.While (.BoolLit true 12) (.mk 13 [] []) 14] }

/-- A context whose method 0 is `whileFunc`. -/
def ctxWhile : Ctx := { classes := [], funcs := [whileFunc], vars := [] }

/-- Class `A` (index 0) with the field `x` (variable 0). -/
def classA : ClassInfo :=
  { name := ("A"), parent := none, members := [(("x"), .Var 0)], fields := [.VarF 0] }

/-- Class `B` (index 1), unrelated to `A`. -/
def classB : ClassInfo := { name := ("B"), parent := none, members := [], fields := [] }

/-- Field `A.x` (variable 0) and a local `A a` (variable 1). -/
def ctxAB : Ctx :=
  { classes := [classA, classB], funcs := [intFunc],
    vars := [{ name := ("x"), ty := Ty.int, loc := 1, ownerIsClass := true },
             { name := ("a"), ty := Ty.mk_obj 0, loc := 2, ownerIsClass := false }] }

/-- Checking inside a method of class `B`. -/
def envB : Env := { curClass := some 1, curFunc := some 0 }

/-- A scope stack with the local `a : A` in scope. -/
def stAB : St := { scopeStack := [.LocalF [(("a"), .Var 1)]] }

/-- A context with a single local `int x` declared at location 10. -/
def ctxSelf : Ctx :=
  { classes := [], funcs := [intFunc],
    vars := [{ name := ("x"), ty := Ty.int, loc := 10, ownerIsClass := false }] }

/-- The scope stack of the block declaring `x` (variable 0). -/
def stSelf : St := { scopeStack := [.LocalF [(("x"), .Var 0)]] }

/-! ### Helper lemmas -/

/-- A local whose declaration begins at or after the cutoff position is
invisible in its frame; lookup continues in the outer frames. -/
theorem lookup_before_self_invisible (ctx : Ctx) (syms : List (String × Symbol))
    (rest : List Frame) (nm : String) (vloc : Loc) (v : Nat)
    (hsym : assocFind syms nm = some (.Var v))
    (hloc : vloc ≤ (ctx.vars.getD v default).loc) :
    lookup_before ctx (.LocalF syms :: rest) nm vloc = lookup_before ctx rest nm vloc := by
  simp only [List.getD_eq_getElem?_getD] at hloc
  simp [lookup_before, frameLookupBefore, hsym, Nat.not_lt.mpr hloc]

/-- A `break` statement anywhere in a statement list checked at loop depth 0
contributes a `BreakOutOfLoop` diagnostic (its output does not depend on the
threaded state). -/
theorem stmtEach_break_mem (ctx : Ctx) (env : Env) (h0 : env.loopCnt = 0) (bloc : Loc) :
    ∀ (l : List Stmt) (st : St), Stmt.Break bloc ∈ l →
      (⟨bloc, .BreakOutOfLoop⟩ : Diag) ∈ (stmtEach ctx env st l).2 := by
  intro l
  induction l with
  | nil => intro st h; cases h
  | cons s rest ih =>
    intro st h
    rcases List.mem_cons.mp h with h1 | h2
    · subst h1
      simp [stmtEach, stmt, h0]
    · simp only [stmtEach, List.mem_append]
      exact Or.inr (ih _ h2)

/-- The argument loop of `check_call` is the independent per-position check:
every argument is evaluated and, for matching lengths, position `i` gets one
`ArgMismatch` at that argument's location iff its type is not assignable. -/
theorem checkArgs_eq_argJoin (ctx : Ctx) (env : Env) :
    ∀ (args : List Expr) (params : List Ty) (st : St) (i : Nat),
      args.length = params.length →
      checkArgs ctx env st args params i =
        ((argRuns ctx env st args).2, argJoin ctx (argRuns ctx env st args).1 params i) := by
  intro args
  induction args with
  | nil =>
    intro params st i h
    cases params with
    | nil => simp [checkArgs, argRuns, argJoin]
    | cons p ps => simp at h
  | cons a rest ih =>
    intro params st i h
    cases params with
    | nil => simp at h
    | cons p ps =>
      simp only [List.length_cons, Nat.succ.injEq] at h
      simp [checkArgs, argRuns, argJoin, ih ps _ _ h]

/-! ### Claims -/

/-- C1 (amended): a `return e;` counts as definitely-returning at its own
position whether or not `e`'s type is assignable to the enclosing method's
return type; a valueless `return;` does NOT count as definitely-returning,
though it does issue exactly one ReturnMismatch when the method's return
type is not exactly void. -/
theorem c1_return_definitely_returns (ctx : Ctx) (env : Env) (st : St) (e : Expr) (loc : Loc) :
    (stmt ctx env st (.Return (some e) loc)).1 = true ∧
    (stmt ctx env st (.Return none loc)).1 = false ∧
    ((ctx.funcs.getD (env.curFunc.getD 0) default).retTy ≠ Ty.void →
      (stmt ctx env st (.Return none loc)).2.2 =
        [⟨loc, .ReturnMismatch Ty.void ((ctx.funcs.getD (env.curFunc.getD 0) default).retTy)⟩]) := by
  refine ⟨by simp [stmt], by simp [stmt], fun h => ?_⟩
  simp only [List.getD_eq_getElem?_getD] at h
  simp [stmt, h]

/-- C1 counterexample: in a method context, the checker does not count a
valueless `return;` as definitely-returning at its own position, contrary to
the claim. -/
theorem c1_counterexample :
    ¬ ((stmt ctxInt envInt {} (.Return none 7)).1 = true) := by
  simp [stmt]

/-- C1 witness. -/
theorem c1_witness :
    (stmt ctxInt envInt {} (.Return (some (.IntLit 1 4)) 7)).1 = true ∧
    (stmt ctxInt envInt {} (.Return none 7)).1 = false ∧
    (ctxInt.funcs.getD (envInt.curFunc.getD 0) default).retTy ≠ Ty.void ∧
    (stmt ctxInt envInt {} (.Return none 7)).2.2 =
      [⟨7, .ReturnMismatch Ty.void ((ctxInt.funcs.getD (envInt.curFunc.getD 0) default).retTy)⟩] := by
  have h := c1_return_definitely_returns ctxInt envInt {} (.IntLit 1 4) 7
  have hv : (ctxInt.funcs.getD (envInt.curFunc.getD 0) default).retTy ≠ Ty.void := by decide
  exact ⟨h.1, h.2.1, hv, h.2.2 hv⟩

/-- C10: a while statement is never counted as definitely-returning, and a
method whose declared return type is not void and whose body block does not
definitely return gets exactly one NoReturn diagnostic, appended at the
body's location. -/
theorem c10_missing_return (ctx : Ctx) (env : Env) (st : St) (f : Nat)
    (hv : (ctx.funcs.getD f default).retTy ≠ Ty.void)
    (hnr : (block ctx { env with curFunc := some f }
             (st.pushScope (.ParamF ((ctx.funcs.getD f default).paramSyms)))
             ((ctx.funcs.getD f default).body)).1 = false) :
    (∀ (st2 : St) (c : Expr) (b : Block) (l : Loc), (stmt ctx env st2 (.While c b l)).1 = false) ∧
    (funcCheck ctx env st f).2 =
      (block ctx { env with curFunc := some f }
         (st.pushScope (.ParamF ((ctx.funcs.getD f default).paramSyms)))
         ((ctx.funcs.getD f default).body)).2.2 ++
        [⟨((ctx.funcs.getD f default).body).loc, .NoReturn⟩] := by
  constructor
  · intro st2 c b l
    simp [stmt]
  · simp only [List.getD_eq_getElem?_getD] at hnr hv
    simp [funcCheck, hnr, hv]

/-- C10 witness: `int f() { while (true) { } }` issues NoReturn at the body
location. -/
theorem c10_witness :
    (ctxWhile.funcs.getD 0 default).retTy ≠ Ty.void ∧
    (block ctxWhile { envInt with curFunc := some 0 }
       (St.pushScope {} (.ParamF ((ctxWhile.funcs.getD 0 default).paramSyms)))
       ((ctxWhile.funcs.getD 0 default).body)).1 = false ∧
    (funcCheck ctxWhile envInt {} 0).2 =
      (block ctxWhile { envInt with curFunc := some 0 }
         (St.pushScope {} (.ParamF ((ctxWhile.funcs.getD 0 default).paramSyms)))
         ((ctxWhile.funcs.getD 0 default).body)).2.2 ++
        [⟨((ctxWhile.funcs.getD 0 default).body).loc, .NoReturn⟩] := by
  have hv : (ctxWhile.funcs.getD 0 default).retTy ≠ Ty.void := by decide
  have hnr : (block ctxWhile { envInt with curFunc := some 0 }
      (St.pushScope {} (.ParamF ((ctxWhile.funcs.getD 0 default).paramSyms)))
      ((ctxWhile.funcs.getD 0 default).body)).1 = false := by
    simp [ctxWhile, whileFunc, block, blockGo, stmt, Stmt.isBreak]
  exact ⟨hv, hnr, (c10_missing_return ctxWhile envInt {} 0 hv hnr).2⟩

/-- C6: checking a `for` statement does not increment the loop-nesting
counter around its body (only `while` does): a `break` appearing directly in
the body of a `for` checked at loop depth 0 (no enclosing `while` on the
traversal path) is reported as BreakOutOfLoop. -/
theorem c6_for_break (ctx : Ctx) (env : Env) (st : St) (ini : Stmt) (cond : Expr)
    (update : Stmt) (bl : Loc) (bsyms : List (String × Symbol)) (bstmts : List Stmt)
    (floc bloc : Loc) (h0 : env.loopCnt = 0) (hb : Stmt.Break bloc ∈ bstmts) :
    (⟨bloc, .BreakOutOfLoop⟩ : Diag) ∈
      (stmt ctx env st (.For ini cond update (.mk bl bsyms bstmts) floc)).2.2 := by
  simp only [stmt]
  exact List.mem_append_right _ (stmtEach_break_mem ctx env h0 bloc bstmts _ hb)

/-- C6 witness: `for (;true;) { break; }` outside any while issues
BreakOutOfLoop at the break. -/
theorem c6_witness :
    (⟨21, .BreakOutOfLoop⟩ : Diag) ∈
      (stmt ctxInt envInt {} (.For (.Skip 18) (.BoolLit true 19) (.Skip 20)
        (.mk 22 [] [.Break 21]) 23)).2.2 :=
  c6_for_break ctxInt envInt {} (.Skip 18) (.BoolLit true 19) (.Skip 20) 22 [] [.Break 21]
    23 21 rfl (List.mem_singleton.mpr rfl)

/-- C3: an operator with an Error operand issues no operand-mismatch
diagnostic of its own and still yields the operator's fixed result type —
`int` for arithmetic and unary minus, `bool` for relational, equality,
logical operators and unary not. -/
theorem c3_error_absorption (ctx : Ctx) (env : Env) (st : St) (bop : BinOp) (uop : UnOp)
    (l r u : Expr) (loc : Loc) :
    (((expr ctx env st l).1 = Ty.error ∨ (expr ctx env (expr ctx env st l).2.1 r).1 = Ty.error) →
      binary ctx env st bop l r loc =
        (binOpResultTy bop, (expr ctx env (expr ctx env st l).2.1 r).2.1,
         (expr ctx env st l).2.2 ++ (expr ctx env (expr ctx env st l).2.1 r).2.2)) ∧
    ((expr ctx env st u).1 = Ty.error →
      unary ctx env st uop u loc =
        (unOpResultTy uop, (expr ctx env st u).2.1, (expr ctx env st u).2.2)) := by
  constructor
  · intro h
    rw [binary.eq_def]
    simp [h]
  · intro h
    cases uop <;> simp [unary, h, unOpResultTy, Ty.error, Ty.int, Ty.bool]

/-- C3 witness: `q + 1` and `-q` with `q` undeclared (hence of type Error)
issue no operand-mismatch diagnostic and yield int. -/
theorem c3_witness :
    ((expr ctxInt envInt ({} : St) (.VarSel none ("q") 9)).1 = Ty.error) ∧
    binary ctxInt envInt ({} : St) .Add (.VarSel none ("q") 9) (.IntLit 1 10) 11 =
      (binOpResultTy .Add,
       (expr ctxInt envInt (expr ctxInt envInt ({} : St) (.VarSel none ("q") 9)).2.1
         (.IntLit 1 10)).2.1,
       (expr ctxInt envInt ({} : St) (.VarSel none ("q") 9)).2.2 ++
         (expr ctxInt envInt (expr ctxInt envInt ({} : St) (.VarSel none ("q") 9)).2.1
           (.IntLit 1 10)).2.2) ∧
    unary ctxInt envInt ({} : St) .Neg (.VarSel none ("q") 9) 11 =
      (unOpResultTy .Neg, (expr ctxInt envInt ({} : St) (.VarSel none ("q") 9)).2.1,
       (expr ctxInt envInt ({} : St) (.VarSel none ("q") 9)).2.2) := by
  have herr : (expr ctxInt envInt ({} : St) (.VarSel none ("q") 9)).1 = Ty.error := by
    simp [expr, exprK, var_sel, lookup_before]
  have h := c3_error_absorption ctxInt envInt ({} : St) .Add .Neg (.VarSel none ("q") 9)
    (.IntLit 1 10) (.VarSel none ("q") 9) 11
  exact ⟨herr, h.1 (Or.inl herr), h.2 herr⟩

/-- C7: a qualified call whose owner synthesizes an array type and whose
name is the built-in `length` selector yields int without consulting any
class; supplied arguments produce one LengthWithArgument diagnostic carrying
the argument count, and the call still yields int. -/
theorem c7_length_call (ctx : Ctx) (env : Env) (st : St) (o : Expr) (args : List Expr)
    (loc : Loc) (h : 0 < (expr ctx env { st with curUsed := true } o).1.arr) :
    call ctx env st (some o) LENGTH args loc =
      (Ty.int, (expr ctx env { st with curUsed := true } o).2.1,
       (expr ctx env { st with curUsed := true } o).2.2 ++
         (if args.isEmpty then [] else [⟨loc, .LengthWithArgument args.length⟩])) := by
  have hne : (expr ctx env { st with curUsed := true } o).1 ≠ Ty.error := by
    intro hh
    rw [hh] at h
    simp [Ty.error] at h
  simp [call, hne, Ty.is_arr, h]

/-- C7 witness: `arr.length(1)` on `int[] arr` yields int and issues
LengthWithArgument(1). -/
theorem c7_witness :
    (0 < (expr ctxArr envInt { stArr with curUsed := true } (.VarSel none ("arr") 20)).1.arr) ∧
    call ctxArr envInt stArr (some (.VarSel none ("arr") 20)) LENGTH [.IntLit 1 42] 21 =
      (Ty.int, (expr ctxArr envInt { stArr with curUsed := true } (.VarSel none ("arr") 20)).2.1,
       (expr ctxArr envInt { stArr with curUsed := true } (.VarSel none ("arr") 20)).2.2 ++
         (if ([(.IntLit 1 42 : Expr)]).isEmpty then []
          else [⟨21, .LengthWithArgument ([(.IntLit 1 42 : Expr)]).length⟩])) := by
  have h : 0 < (expr ctxArr envInt { stArr with curUsed := true }
      (.VarSel none ("arr") 20)).1.arr := by
    simp [expr, exprK, var_sel, lookup_before, frameLookupBefore, assocFind, stArr, ctxArr,
      envInt]
  exact ⟨h, c7_length_call ctxArr envInt stArr (.VarSel none ("arr") 20) [.IntLit 1 42] 21 h⟩

/-- C8: a qualified member select whose owner synthesizes `Object c` and
whose name resolves through the class chain to a variable issues
PrivateFieldAccess iff the accessing class does not extend (is not `c` nor a
descendant of `c`); a resolved non-variable symbol types as its declared
type with no further check and no diagnostic. -/
theorem c8_field_privacy (ctx : Ctx) (env : Env) (st : St) (o : Expr) (name : String)
    (loc : Loc) (c : Nat)
    (howner : (expr ctx env { st with curUsed := true } o).1 = Ty.mk_obj c) :
    (∀ v, ctx.clookup c name = some (.Var v) →
      var_sel ctx env st (some o) name loc =
        ((ctx.vars.getD v default).ty,
         ((expr ctx env { st with curUsed := true } o).2.1).annotVar loc v,
         (expr ctx env { st with curUsed := true } o).2.2 ++
           (if !(ctx.extendsClass (env.curClass.getD 0) c) then
              [⟨loc, .PrivateFieldAccess name (Ty.mk_obj c)⟩]
            else []))) ∧
    (∀ s, ctx.clookup c name = some s → (∀ w, s ≠ .Var w) →
      var_sel ctx env st (some o) name loc =
        (s.ty ctx, (expr ctx env { st with curUsed := true } o).2.1,
         (expr ctx env { st with curUsed := true } o).2.2)) := by
  constructor
  · intro v hl
    rw [var_sel.eq_def]
    simp [howner, Ty.mk_obj, hl]
  · intro s hl hnv
    rw [var_sel.eq_def]
    cases s with
    | Var w => exact absurd rfl (hnv w)
    | Func g => simp [howner, Ty.mk_obj, hl]
    | This g => simp [howner, Ty.mk_obj, hl]
    | Class g => simp [howner, Ty.mk_obj, hl]

/-- C8 witness: inside class B (unrelated to A), `a.x` with `a : A` and `x`
a field of A resolves to the field and issues PrivateFieldAccess. -/
theorem c8_witness :
    ((expr ctxAB envB { stAB with curUsed := true } (.VarSel none ("a") 30)).1 = Ty.mk_obj 0) ∧
    ctxAB.clookup 0 ("x") = some (.Var 0) ∧
    var_sel ctxAB envB stAB (some (.VarSel none ("a") 30)) ("x") 31 =
      ((ctxAB.vars.getD 0 default).ty,
       ((expr ctxAB envB { stAB with curUsed := true } (.VarSel none ("a") 30)).2.1).annotVar 31 0,
       (expr ctxAB envB { stAB with curUsed := true } (.VarSel none ("a") 30)).2.2 ++
         (if !(ctxAB.extendsClass (envB.curClass.getD 0) 0) then
            [⟨31, .PrivateFieldAccess ("x") (Ty.mk_obj 0)⟩]
          else [])) := by
  have howner : (expr ctxAB envB { stAB with curUsed := true }
      (.VarSel none ("a") 30)).1 = Ty.mk_obj 0 := by
    simp [expr, exprK, var_sel, lookup_before, frameLookupBefore, assocFind, stAB, ctxAB, envB,
      Ty.mk_obj]
  have hl : ctxAB.clookup 0 ("x") = some (.Var 0) := by decide
  exact ⟨howner, hl, (c8_field_privacy ctxAB envB stAB (.VarSel none ("a") 30) ("x") 31 0
    howner).1 0 hl⟩

/-- C9: inside the initializer of a local declaration, an unqualified use of
a name is looked up with the declaration's own position as cutoff, so the
variable being declared (whose declaration begins at or after that position)
is invisible: with no earlier binding the use is flagged UndeclaredVar, and
with an outer variable the use resolves to that outer variable with no
UndeclaredVar diagnostic. -/
theorem c9_self_reference (ctx : Ctx) (env : Env) (st : St) (ty : Ty) (nm : String)
    (vloc iloc sloc sl : Loc) (v : Nat) (syms : List (String × Symbol)) (rest : List Frame)
    (hstack : st.scopeStack = .LocalF syms :: rest)
    (hsym : assocFind syms nm = some (.Var v))
    (hloc : vloc ≤ (ctx.vars.getD v default).loc) :
    (lookup_before ctx rest nm vloc = none →
      (stmt ctx env st (.LocalVarDef ty nm vloc (some (iloc, .VarSel none nm sloc)) sl)).2.2 =
        [⟨sloc, .UndeclaredVar nm⟩]) ∧
    (∀ w, lookup_before ctx rest nm vloc = some (.Var w) →
      (stmt ctx env st
          (.LocalVarDef ty nm vloc (some (iloc, .VarSel none nm sloc)) sl)).2.1.varLog =
        st.varLog ++ [(sloc, w)] ∧
      ∀ d, d ∈ (stmt ctx env st
          (.LocalVarDef ty nm vloc (some (iloc, .VarSel none nm sloc)) sl)).2.2 →
        d.kind ≠ .UndeclaredVar nm) := by
  have hcut := lookup_before_self_invisible ctx syms rest nm vloc v hsym hloc
  constructor
  · intro hnone
    simp only [stmt, expr, exprK, var_sel]
    rw [hstack, hcut, hnone]
    simp [assignable_to, Ty.error]
  · intro w hsome
    simp only [stmt, expr, exprK, var_sel]
    rw [hstack, hcut, hsome]
    constructor
    · simp [St.annotVar, St.annot]
    · intro d hd
      simp only [List.mem_append] at hd
      rcases hd with hd | hd
      · split at hd
        · split at hd
          · simp only [List.mem_singleton] at hd
            subst hd
            simp
          · simp at hd
        · simp at hd
      · split at hd
        · simp only [List.mem_singleton] at hd
          subst hd
          simp
        · simp at hd

/-- C9 witness: `int x = x;` with no earlier binding of `x` flags the
right-hand `x` as undeclared. -/
theorem c9_witness :
    lookup_before ctxSelf [] ("x") 10 = none ∧
    (stmt ctxSelf envInt stSelf
        (.LocalVarDef Ty.int ("x") 10 (some (12, .VarSel none ("x") 13)) 14)).2.2 =
      [⟨13, .UndeclaredVar ("x")⟩] := by
  have hnone : lookup_before ctxSelf [] ("x") 10 = none := by simp [lookup_before]
  refine ⟨hnone, ?_⟩
  exact (c9_self_reference ctxSelf envInt stSelf Ty.int ("x") 10 12 13 14 0
    [(("x"), .Var 0)] [] rfl (by decide) (by decide)).1 hnone

/-- C4: a call resolved to a method: if the argument count differs from the
parameter count, exactly one ArgcMismatch diagnostic is issued and no
argument is checked (the state is untouched beyond the resolution
annotation); if the counts are equal, every argument is evaluated and each
position is independently reported with one ArgMismatch at that argument's
location iff its type is not assignable to the positional parameter type. -/
theorem c4_call_argument_checks (ctx : Ctx) (env : Env) (st : St) (hasOwner : Bool)
    (name : String) (args : List Expr) (owner : Ty) (f : Nat) (loc : Loc) :
    check_call ctx env st hasOwner name args owner (some (.Func f)) loc =
      (let fi := ctx.funcs.getD f default
       let st1 := st.annotFunc loc f
       let so := staticCheckOut ctx env hasOwner name owner f loc
       if fi.param.length = args.length then
         (fi.retTy, (argRuns ctx env st1 args).2,
          so ++ argJoin ctx (argRuns ctx env st1 args).1 fi.param 0)
       else
         (fi.retTy, st1, so ++ [⟨loc, .ArgcMismatch name fi.param.length args.length⟩])) := by
  by_cases h : (ctx.funcs.getD f default).param.length = args.length
  · have e1 := checkArgs_eq_argJoin ctx env args ((ctx.funcs.getD f default).param)
      (st.annotFunc loc f) 0 h.symm
    simp only [check_call]
    simp only [List.getD_eq_getElem?_getD] at h e1
    simp [h, e1]
  · simp only [check_call]
    simp only [List.getD_eq_getElem?_getD] at h
    simp [h]

/-- C5 (amended): the node-annotation discipline of the pass.
(1) Every expression node the pass visits has its synthesized type appended
to the append-only type log exactly once, at the end of that node's own
visit, so it is never revised.
(2)-(4) An unqualified name-reference node is annotated with the resolved
variable exactly when its lookup yields a variable: a non-variable symbol or
a failed lookup writes nothing.
(5)-(7) A qualified name-reference node whose owner synthesized `Object c`
is annotated with the resolved variable exactly when the class lookup
yields a variable: a non-variable symbol or a failed lookup writes nothing.
(8)-(9) A call resolved to a method has the method annotation written
immediately at resolution: it is the single function-log append when the
argument count mismatches, and the state handed to the argument checks
already carries it when the counts match.
(10)-(11) A missing or non-method call target writes no method annotation.
(12) The built-in length call on an array-typed owner writes no method
annotation either. -/
theorem c5_visit_annotates (ctx : Ctx) (env : Env) :
    (∀ (st : St) (e : Expr),
      ∃ pre, (expr ctx env st e).2.1.tyLog = pre ++ [(e.loc, (expr ctx env st e).1)]) ∧
    (∀ (st : St) (name : String) (loc : Loc) (v : Nat),
      lookup_before ctx st.scopeStack name (env.curVarDef.getD loc) = some (.Var v) →
      (var_sel ctx env st none name loc).2.1.varLog = st.varLog ++ [(loc, v)]) ∧
    (∀ (st : St) (name : String) (loc : Loc) (s : Symbol),
      lookup_before ctx st.scopeStack name (env.curVarDef.getD loc) = some s → (∀ w, s ≠ .Var w) →
      (var_sel ctx env st none name loc).2.1.varLog = st.varLog) ∧
    (∀ (st : St) (name : String) (loc : Loc),
      lookup_before ctx st.scopeStack name (env.curVarDef.getD loc) = none →
      (var_sel ctx env st none name loc).2.1.varLog = st.varLog) ∧
    (∀ (st : St) (o : Expr) (name : String) (loc : Loc) (c v : Nat),
      (expr ctx env { st with curUsed := true } o).1 = Ty.mk_obj c →
      ctx.clookup c name = some (.Var v) →
      (var_sel ctx env st (some o) name loc).2.1.varLog =
        (expr ctx env { st with curUsed := true } o).2.1.varLog ++ [(loc, v)]) ∧
    (∀ (st : St) (o : Expr) (name : String) (loc : Loc) (c : Nat) (s : Symbol),
      (expr ctx env { st with curUsed := true } o).1 = Ty.mk_obj c →
      ctx.clookup c name = some s → (∀ w, s ≠ .Var w) →
      (var_sel ctx env st (some o) name loc).2.1.varLog =
        (expr ctx env { st with curUsed := true } o).2.1.varLog) ∧
    (∀ (st : St) (o : Expr) (name : String) (loc : Loc) (c : Nat),
      (expr ctx env { st with curUsed := true } o).1 = Ty.mk_obj c →
      ctx.clookup c name = none →
      (var_sel ctx env st (some o) name loc).2.1.varLog =
        (expr ctx env { st with curUsed := true } o).2.1.varLog) ∧
    (∀ (st : St) (hasOwner : Bool) (name : String) (args : List Expr) (owner : Ty)
        (f : Nat) (loc : Loc),
      (ctx.funcs.getD f default).param.length ≠ args.length →
      (check_call ctx env st hasOwner name args owner (some (.Func f)) loc).2.1.funcLog =
        st.funcLog ++ [(loc, f)]) ∧
    (∀ (st : St) (hasOwner : Bool) (name : String) (args : List Expr) (owner : Ty)
        (f : Nat) (loc : Loc),
      (ctx.funcs.getD f default).param.length = args.length →
      (check_call ctx env st hasOwner name args owner (some (.Func f)) loc).2.1 =
        (checkArgs ctx env (st.annotFunc loc f) args ((ctx.funcs.getD f default).param) 0).1) ∧
    (∀ (st : St) (hasOwner : Bool) (name : String) (args : List Expr) (owner : Ty) (loc : Loc),
      (check_call ctx env st hasOwner name args owner none loc).2.1.funcLog = st.funcLog) ∧
    (∀ (st : St) (hasOwner : Bool) (name : String) (args : List Expr) (owner : Ty)
        (s : Symbol) (loc : Loc),
      (∀ g, s ≠ .Func g) →
      (check_call ctx env st hasOwner name args owner (some s) loc).2.1.funcLog = st.funcLog) ∧
    (∀ (st : St) (o : Expr) (args : List Expr) (loc : Loc),
      0 < (expr ctx env { st with curUsed := true } o).1.arr →
      (call ctx env st (some o) LENGTH args loc).2.1.funcLog =
        (expr ctx env { st with curUsed := true } o).2.1.funcLog) := by
  refine ⟨?_, ?_, ?_, ?_, ?_, ?_, ?_, ?_, ?_, ?_, ?_, ?_⟩
  · intro st e
    refine ⟨(exprK ctx env st e).2.1.tyLog, ?_⟩
    simp only [expr, St.annot]
  · intro st name loc v h
    cases hcv : env.curVarDef with
    | none =>
      rw [hcv] at h
      simp only [Option.getD_none] at h
      simp [var_sel, hcv, h, St.annotVar]
    | some p =>
      rw [hcv] at h
      simp only [Option.getD_some] at h
      simp [var_sel, hcv, h, St.annotVar]
  · intro st name loc s h hnv
    cases s with
    | Var w => exact absurd rfl (hnv w)
    | Func g =>
      cases hcv : env.curVarDef <;>
        (rw [hcv] at h; simp at h; simp [var_sel, hcv, h])
    | This g =>
      cases hcv : env.curVarDef <;>
        (rw [hcv] at h; simp at h; simp [var_sel, hcv, h])
    | Class g =>
      cases hcv : env.curVarDef <;>
        (rw [hcv] at h; simp at h; simp [var_sel, hcv, h]; split <;> simp)
  · intro st name loc h
    cases hcv : env.curVarDef <;>
      (rw [hcv] at h; simp at h; simp [var_sel, hcv, h])
  · intro st o name loc c v howner hl
    rw [var_sel.eq_def]
    simp [howner, Ty.mk_obj, hl, St.annotVar]
  · intro st o name loc c s howner hl hnv
    rw [var_sel.eq_def]
    cases s with
    | Var w => exact absurd rfl (hnv w)
    | Func g => simp [howner, Ty.mk_obj, hl]
    | This g => simp [howner, Ty.mk_obj, hl]
    | Class g => simp [howner, Ty.mk_obj, hl]
  · intro st o name loc c howner hl
    rw [var_sel.eq_def]
    simp [howner, Ty.mk_obj, hl]
  · intro st hasOwner name args owner f loc h
    simp only [check_call]
    simp only [List.getD_eq_getElem?_getD] at h
    simp [h, St.annotFunc]
  · intro st hasOwner name args owner f loc h
    simp only [check_call]
    simp only [List.getD_eq_getElem?_getD] at h ⊢
    simp [h]
  · intro st hasOwner name args owner loc
    simp [check_call]
  · intro st hasOwner name args owner s loc hnf
    cases s with
    | Func g => exact absurd rfl (hnf g)
    | Var w => simp [check_call]
    | This g => simp [check_call]
    | Class g => simp [check_call]
  · intro st o args loc h
    have hne : (expr ctx env { st with curUsed := true } o).1 ≠ Ty.error := by
      intro hh
      rw [hh] at h
      simp [Ty.error] at h
    simp [call, hne, Ty.is_arr, h]

/-- C5 counterexample: checking `arr.length(1)` never visits the argument
node at location 42, which therefore gets no type annotation, and the call
node itself, though visited (it yields int), is annotated with no resolved
declaration — so neither is every expression node annotated with its type,
nor every call node with a resolved declaration. -/
theorem c5_counterexample :
    ((expr ctxArr envInt stArr lenCallC5).2.1.tyLog.filter (fun p => p.1 == 42)) = [] ∧
    (expr ctxArr envInt stArr lenCallC5).2.1.funcLog = [] ∧
    (expr ctxArr envInt stArr lenCallC5).1 = Ty.int := by
  refine ⟨?_, ?_, ?_⟩ <;>
    simp [lenCallC5, expr, exprK, call, var_sel, lookup_before, frameLookupBefore, assocFind,
      ctxArr, stArr, envInt, LENGTH, Ty.is_arr, St.annot, St.annotVar, Ty.error, Ty.int,
      Expr.loc]

/-- C5 witness: the local `arr` resolves to variable 0 and is annotated; a
resolved zero-argument method has the state for its (empty) argument check
already carrying the annotation; a missing target writes nothing; the
length call writes nothing. -/
theorem c5_witness :
    (var_sel ctxArr envInt stArr none ("arr") 20).2.1.varLog = stArr.varLog ++ [(20, 0)] ∧
    (check_call ctxArr envInt stArr false ("f") [] (Ty.mk_obj 0) (some (.Func 0)) 33).2.1 =
      (checkArgs ctxArr envInt (stArr.annotFunc 33 0) [] ((ctxArr.funcs.getD 0 default).param) 0).1 ∧
    (check_call ctxArr envInt stArr false ("g") [] (Ty.mk_obj 0) none 34).2.1.funcLog =
      stArr.funcLog ∧
    (call ctxArr envInt stArr (some (.VarSel none ("arr") 20)) LENGTH [.IntLit 1 42]
        21).2.1.funcLog =
      (expr ctxArr envInt { stArr with curUsed := true } (.VarSel none ("arr") 20)).2.1.funcLog := by
  have h := c5_visit_annotates ctxArr envInt
  have hlk : lookup_before ctxArr stArr.scopeStack ("arr") (envInt.curVarDef.getD 20) =
      some (.Var 0) := by decide
  have hlen : (ctxArr.funcs.getD 0 default).param.length = ([] : List Expr).length := by decide
  have harr : 0 < (expr ctxArr envInt { stArr with curUsed := true }
      (.VarSel none ("arr") 20)).1.arr := by
    simp [expr, exprK, var_sel, lookup_before, frameLookupBefore, assocFind, stArr, ctxArr,
      envInt]
  exact ⟨h.2.1 stArr ("arr") 20 0 hlk,
    h.2.2.2.2.2.2.2.2.1 stArr false ("f") [] (Ty.mk_obj 0) 0 33 hlen,
    h.2.2.2.2.2.2.2.2.2.1 stArr false ("g") [] (Ty.mk_obj 0) 34,
    h.2.2.2.2.2.2.2.2.2.2.2 stArr (.VarSel none ("arr") 20) [.IntLit 1 42] 21 harr⟩

/-- C2 (evaluation of the code at the failing input): for the method body
`{ break; skip; return 1; }`, whose first decisive statement is the break,
the checker computes definitely-returns = true — the `ended` flag is
recomputed as `ret || is_break(current)` on every iteration and is lost one
statement after a decisive break, letting the later `return 1;` set the
block result — while one UnreachableCode diagnostic is attached to the
`skip` after the break. -/
theorem c2_code_eval :
    (block ctxInt envInt {} blkC2).1 = true ∧
    ((block ctxInt envInt {} blkC2).2.2.filter (fun d => d.kind == .UnreachableCode)) =
      [⟨3, .UnreachableCode⟩] := by
  constructor <;>
    simp [block, blockGo, stmt, blkC2, expr, exprK, Stmt.isBreak, assignable_to, Ty.int,
      ctxInt, envInt, intFunc, Ty.void, Ty.error, Stmt.loc, Expr.loc]

end Decaf
